import Mathlib

/-!
Shallow embedding of the Composa template engine core
(src/template-engine.js and src/email-client.js).

JavaScript strings are modelled as Lean `String` (lists of characters),
JS scalar values as `JsVal`, objects used as key-value bags as association
lists with first-match lookup (so `vars ++ defaults` models
the object spread `{...defaults, ...variables}`, caller keys winning),
`Map` fields as association lists where insertion is modelled by
prepending (lookup-equivalent to `Map.set`), and the filesystem as an
immutable association list from full file paths to file contents.
Filesystem accesses are counted explicitly: `probes` counts
`fs.existsSync` calls and `reads` counts `fs.readFileSync` calls.
-/

/-- Named characters (used instead of character literals). -/
def lbrace : Char := Char.ofNat 123

def rbrace : Char := Char.ofNat 125

def nlChar : Char := Char.ofNat 10

def crChar : Char := Char.ofNat 13

def uscore : Char := Char.ofNat 95

/-- A JavaScript scalar value as it may appear in a variable bag.
`vNull` stands for both `null` and `undefined` (the code only ever
tests `x == null`, which identifies the two). -/
inductive JsVal where
  | vStr (s : String)
  | vNum (n : Int)
  | vBool (b : Bool)
  | vNull
  deriving DecidableEq

/-- JavaScript `String(v)` coercion for the values above. -/
def jsToString : JsVal → String
  | JsVal.vStr s => s
  | JsVal.vNum n => toString n
  | JsVal.vBool b => if b then ("true") else ("false")
  | JsVal.vNull => ("null")

/-- A variable bag: later spreads are modelled by putting the
overriding bindings first, `List.lookup` takes the first match. -/
abbrev Bag := List (String × JsVal)

/-- The escape map of `TemplateEngine.replaceVariables`
(`/[&<>"']/g` with its `escapeMap`). -/
def escapeChar (c : Char) : List Char :=
  if c == Char.ofNat 38 then (("&amp;")).data
  else if c == Char.ofNat 60 then (("&lt;")).data
  else if c == Char.ofNat 62 then (("&gt;")).data
  else if c == Char.ofNat 34 then (("&quot;")).data
  else if c == Char.ofNat 39 then (("&#39;")).data
  else [c]

def escapeHtml (s : String) : String :=
  String.mk (s.data.flatMap escapeChar)

/-- First character class of the placeholder identifier grammar
`[a-zA-Z_]`. -/
def isIdentStart (c : Char) : Bool := c.isAlpha || c == uscore

/-- Continuation character class `[a-zA-Z0-9_]`. -/
def isIdentChar (c : Char) : Bool := c.isAlphanum || c == uscore

/-- Longest prefix of identifier characters, and the rest. -/
def takeIdent : List Char → List Char × List Char
  | [] => ([], [])
  | c :: cs =>
    if isIdentChar c then
      ((takeIdent cs).1.cons c, (takeIdent cs).2)
    else ([], c :: cs)

theorem takeIdent_append (cs : List Char) :
    (takeIdent cs).1 ++ (takeIdent cs).2 = cs := by
  induction cs with
  | nil => rfl
  | cons c cs ih =>
    by_cases h : isIdentChar c
    · simp [takeIdent, h, ih]
    · simp [takeIdent, h]

theorem takeIdent_ident (i : List Char) (h : ∀ c ∈ i, isIdentChar c = true) :
    ∀ b t, isIdentChar b = false → takeIdent (i ++ b :: t) = (i, b :: t) := by
  induction i with
  | nil =>
    intro b t hb
    simp [takeIdent, hb]
  | cons c i ih =>
    intro b t hb
    have hc : isIdentChar c = true := h c (by simp)
    have ih2 := ih (fun x hx => h x (by simp [hx])) b t hb
    simp [takeIdent, hc, ih2]

/-- Matching of the token regex `/\{\{([a-zA-Z_][a-zA-Z0-9_]*)\}\}/`
at the position directly after an opening `\x7b\x7b`: a maximal
identifier run followed by `\x7d\x7d` (the identifier character class
cannot contain a closing brace, so the greedy match with backtracking
succeeds exactly in this case). Returns the key and the rest. -/
def parseTEToken (cs : List Char) : Option (String × List Char) :=
  match takeIdent cs with
  | (c :: i, r1 :: r2 :: rest) =>
    if isIdentStart c && (r1 == rbrace) && (r2 == rbrace) then
      some (String.mk (c :: i), rest)
    else none
  | _ => none

theorem parseTEToken_length (cs : List Char) (k : String) (rest : List Char)
    (h : parseTEToken cs = some (k, rest)) : rest.length < cs.length := by
  unfold parseTEToken at h
  have happ := takeIdent_append cs
  rcases htk : takeIdent cs with ⟨i, r⟩
  rw [htk] at h happ
  match i, r with
  | [], _ => simp at h
  | c :: i, [] => simp at h
  | c :: i, [r1] => simp at h
  | c :: i, r1 :: r2 :: r =>
    simp only at h
    by_cases hc : isIdentStart c && (r1 == rbrace) && (r2 == rbrace)
    · rw [if_pos hc] at h
      have : rest = r := by
        have := h
        injection this with h1
        injection h1 with h2 h3
        exact h3.symm
      subst this
      have hlen : (c :: i).length + (r1 :: r2 :: rest).length = cs.length := by
        rw [← happ]; simp; omega
      simp at hlen
      omega
    · rw [if_neg hc] at h
      simp at h

theorem parseTEToken_of_ident (k : String)
    (hk1 : k.data ≠ []) (hk2 : isIdentStart k.data.headI = true)
    (hk3 : ∀ c ∈ k.data, isIdentChar c = true) (t : List Char) :
    parseTEToken (k.data ++ rbrace :: rbrace :: t) = some (k, t) := by
  rcases hd : k.data with _ | ⟨c, i⟩
  · exact absurd hd hk1
  · have hrb : isIdentChar rbrace = false := by decide
    have hall : ∀ x ∈ c :: i, isIdentChar x = true := by
      intro x hx; exact hk3 x (by rw [hd]; exact hx)
    have htk : takeIdent ((c :: i) ++ rbrace :: rbrace :: t) = (c :: i, rbrace :: rbrace :: t) :=
      takeIdent_ident _ hall _ _ hrb
    have hstart : isIdentStart c = true := by
      have := hk2; rw [hd] at this; simpa using this
    have hmk : String.mk (c :: i) = k := by rw [← hd]
    unfold parseTEToken
    rw [htk]
    simp only [hstart, beq_self_eq_true, Bool.and_self, if_pos, hmk]

/-- Result of one substitution pass: the rewritten string and the keys
recorded as missing (in occurrence order); the source reports the
latter through one `console.warn` when non-empty. -/
structure SubstResult where
  output : String
  missing : List String
  deriving DecidableEq

/-- The global-regex replacement loop of `TemplateEngine.replaceVariables`
(`template.replace(/\{\{([a-zA-Z_][a-zA-Z0-9_]*)\}\}/g, ...)`), scanning
left to right over the characters; `data` is the merged bag
`{...this.defaults, ...variables}`.  On a match the callback checks
`data[key] == null` (missing: record the key, insert nothing) and
otherwise inserts the HTML-escaped `String(data[key])`. -/
def scanTEFuel (data : Bag) : Nat → List Char → List Char × List String
  | 0, _ => ([], [])
  | _ + 1, [] => ([], [])
  | fuel + 1, c :: cs =>
    if c == lbrace then
      match cs with
      | c2 :: cs2 =>
        if c2 == lbrace then
          match parseTEToken cs2 with
          | some (k, rest) =>
            let r := scanTEFuel data fuel rest
            match data.lookup k with
            | none => (r.1, k :: r.2)
            | some JsVal.vNull => (r.1, k :: r.2)
            | some v => ((escapeHtml (jsToString v)).data ++ r.1, r.2)
          | none =>
            let r := scanTEFuel data fuel (c2 :: cs2)
            (c :: r.1, r.2)
        else
          let r := scanTEFuel data fuel (c2 :: cs2)
          (c :: r.1, r.2)
      | [] => ([c], [])
    else
      let r := scanTEFuel data fuel cs
      (c :: r.1, r.2)

/-- The scanner at the fuel that always suffices (each step consumes at
least one character, so `l.length` steps are enough). -/
def scanTE (data : Bag) (l : List Char) : List Char × List String :=
  scanTEFuel data l.length l

theorem scanTEFuel_congr (data : Bag) :
    ∀ f1 f2 l, l.length ≤ f1 → l.length ≤ f2 →
      scanTEFuel data f1 l = scanTEFuel data f2 l := by
  intro f1
  induction f1 with
  | zero =>
    intro f2 l h1 _
    have : l = [] := by
      cases l with
      | nil => rfl
      | cons c cs => simp at h1
    subst this
    cases f2 <;> rfl
  | succ f1 ih =>
    intro f2 l h1 h2
    cases l with
    | nil => cases f2 <;> rfl
    | cons c cs =>
      cases f2 with
      | zero => simp at h2
      | succ f2 =>
        simp only [scanTEFuel]
        by_cases hc : (c == lbrace) = true
        · simp only [hc, if_true]
          cases cs with
          | nil => rfl
          | cons c2 cs2 =>
            by_cases hc2 : (c2 == lbrace) = true
            · simp only [hc2, if_true]
              rcases hp : parseTEToken cs2 with _ | ⟨k, rest⟩
              · simp only
                have hl : (c2 :: cs2).length ≤ f1 := by simp at h1 ⊢; omega
                have hl2 : (c2 :: cs2).length ≤ f2 := by simp at h2 ⊢; omega
                rw [ih f2 (c2 :: cs2) hl hl2]
              · simp only
                have hrest := parseTEToken_length _ _ _ hp
                have hl : rest.length ≤ f1 := by simp at h1; omega
                have hl2 : rest.length ≤ f2 := by simp at h2; omega
                rw [ih f2 rest hl hl2]
            · have hl : (c2 :: cs2).length ≤ f1 := by simp at h1 ⊢; omega
              have hl2 : (c2 :: cs2).length ≤ f2 := by simp at h2 ⊢; omega
              simp [hc2, ih f2 (c2 :: cs2) hl hl2]
        · have hl : cs.length ≤ f1 := by simp at h1; omega
          have hl2 : cs.length ≤ f2 := by simp at h2; omega
          simp [hc, ih f2 cs hl hl2]

theorem scanTE_nil (data : Bag) : scanTE data [] = ([], []) := rfl

theorem scanTE_other (data : Bag) (c : Char) (cs : List Char)
    (h : (c == lbrace) = false) :
    scanTE data (c :: cs) =
      ((scanTE data cs).1.cons c, (scanTE data cs).2) := by
  unfold scanTE
  simp [scanTEFuel, h]

theorem scanTE_token (data : Bag) (cs2 : List Char) (k : String) (rest : List Char)
    (h : parseTEToken cs2 = some (k, rest)) :
    scanTE data (lbrace :: lbrace :: cs2) =
      (match data.lookup k with
       | none => ((scanTE data rest).1, k :: (scanTE data rest).2)
       | some JsVal.vNull => ((scanTE data rest).1, k :: (scanTE data rest).2)
       | some v => ((escapeHtml (jsToString v)).data ++ (scanTE data rest).1,
                    (scanTE data rest).2)) := by
  have hrest := parseTEToken_length _ _ _ h
  unfold scanTE
  simp only [List.length_cons, scanTEFuel, beq_self_eq_true, if_true, h]
  rw [scanTEFuel_congr data (cs2.length + 1) rest.length rest (by omega) (by omega)]

theorem scanTE_nomatch (data : Bag) (cs2 : List Char)
    (h : parseTEToken cs2 = none) :
    scanTE data (lbrace :: lbrace :: cs2) =
      ((scanTE data (lbrace :: cs2)).1.cons lbrace,
       (scanTE data (lbrace :: cs2)).2) := by
  unfold scanTE
  simp only [List.length_cons, scanTEFuel, beq_self_eq_true, if_true, h]

/-- Lazy matching of `/{{(.*?)}}/` at the position directly after an
opening `\x7b\x7b` (EmailClient's `#replaceVariables` regex): the capture
is the shortest run of non-newline characters followed by `\x7d\x7d`.
Returns the captured key characters and the rest after the closer. -/
def findClose : List Char → Option (List Char × List Char)
  | [] => none
  | c :: cs =>
    if c == rbrace then
      match cs with
      | c2 :: cs2 =>
        if c2 == rbrace then some ([], cs2)
        else
          match findClose cs with
          | some (cap, rest) => some (c :: cap, rest)
          | none => none
      | [] => none
    else if c == nlChar || c == crChar then none
    else
      match findClose cs with
      | some (cap, rest) => some (c :: cap, rest)
      | none => none

theorem findClose_length (cs : List Char) (cap rest : List Char)
    (h : findClose cs = some (cap, rest)) : rest.length < cs.length := by
  induction cs generalizing cap rest with
  | nil => simp [findClose] at h
  | cons c cs ih =>
    unfold findClose at h
    by_cases hc : (c == rbrace) = true
    · rw [if_pos hc] at h
      cases cs with
      | nil => simp at h
      | cons c2 cs2 =>
        by_cases hc2 : (c2 == rbrace) = true
        · simp [hc2] at h
          rcases h with ⟨h1, h2⟩
          subst h2; simp; omega
        · simp only [hc2] at h
          simp only [Bool.false_eq_true, if_false] at h
          rcases hf : findClose (c2 :: cs2) with _ | ⟨cap2, rest2⟩ <;> rw [hf] at h
          · simp at h
          · simp at h
            rcases h with ⟨h1, h2⟩
            subst h2
            have := ih _ _ hf
            simp at this ⊢
            omega
    · rw [if_neg hc] at h
      by_cases hnl : (c == nlChar || c == crChar) = true
      · rw [if_pos hnl] at h; simp at h
      · rw [if_neg hnl] at h
        rcases hf : findClose cs with _ | ⟨cap2, rest2⟩ <;> rw [hf] at h
        · simp at h
        · simp at h
          rcases h with ⟨h1, h2⟩
          subst h2
          have := ih _ _ hf
          simp
          omega

theorem findClose_of_ident (i : List Char) (h : ∀ c ∈ i, isIdentChar c = true) :
    ∀ t, findClose (i ++ rbrace :: rbrace :: t) = some (i, t) := by
  induction i with
  | nil =>
    intro t
    simp [findClose]
  | cons c i ih =>
    intro t
    have hc : isIdentChar c = true := h c (by simp)
    have hcrb : (c == rbrace) = false := by
      rcases hcc : c == rbrace with _ | _
      · rfl
      · exfalso
        have : c = rbrace := by exact beq_iff_eq.mp hcc
        subst this
        simp [isIdentChar, Char.isAlphanum, Char.isAlpha, Char.isUpper,
          Char.isLower, Char.isDigit, rbrace, uscore] at hc
    have hcnl : (c == nlChar || c == crChar) = false := by
      rcases hcc : c == nlChar with _ | _
      · rcases hcc2 : c == crChar with _ | _
        · rfl
        · exfalso
          have : c = crChar := by exact beq_iff_eq.mp hcc2
          subst this
          simp [isIdentChar, Char.isAlphanum, Char.isAlpha, Char.isUpper,
            Char.isLower, Char.isDigit, crChar, uscore] at hc
      · exfalso
        have : c = nlChar := by exact beq_iff_eq.mp hcc
        subst this
        simp [isIdentChar, Char.isAlphanum, Char.isAlpha, Char.isUpper,
          Char.isLower, Char.isDigit, nlChar, uscore] at hc
    have ih2 := ih (fun x hx => h x (by simp [hx])) t
    unfold findClose
    rw [List.cons_append]
    simp only [hcrb, Bool.false_eq_true, if_false, hcnl, ih2]

/-- The global-regex replacement loop of EmailClient's
`#replaceVariables` (`template.replace(/{{(.*?)}}/g, ...)`): like the
TemplateEngine loop but with the lazy any-character key grammar and,
crucially, NO HTML escaping of the inserted value. -/
def scanECFuel (data : Bag) : Nat → List Char → List Char × List String
  | 0, _ => ([], [])
  | _ + 1, [] => ([], [])
  | fuel + 1, c :: cs =>
    if c == lbrace then
      match cs with
      | c2 :: cs2 =>
        if c2 == lbrace then
          match findClose cs2 with
          | some (cap, rest) =>
            let k := String.mk cap
            let r := scanECFuel data fuel rest
            match data.lookup k with
            | none => (r.1, k :: r.2)
            | some JsVal.vNull => (r.1, k :: r.2)
            | some v => ((jsToString v).data ++ r.1, r.2)
          | none =>
            let r := scanECFuel data fuel (c2 :: cs2)
            (c :: r.1, r.2)
        else
          let r := scanECFuel data fuel (c2 :: cs2)
          (c :: r.1, r.2)
      | [] => ([c], [])
    else
      let r := scanECFuel data fuel cs
      (c :: r.1, r.2)

def scanEC (data : Bag) (l : List Char) : List Char × List String :=
  scanECFuel data l.length l

theorem scanECFuel_congr (data : Bag) :
    ∀ f1 f2 l, l.length ≤ f1 → l.length ≤ f2 →
      scanECFuel data f1 l = scanECFuel data f2 l := by
  intro f1
  induction f1 with
  | zero =>
    intro f2 l h1 _
    have : l = [] := by
      cases l with
      | nil => rfl
      | cons c cs => simp at h1
    subst this
    cases f2 <;> rfl
  | succ f1 ih =>
    intro f2 l h1 h2
    cases l with
    | nil => cases f2 <;> rfl
    | cons c cs =>
      cases f2 with
      | zero => simp at h2
      | succ f2 =>
        simp only [scanECFuel]
        by_cases hc : (c == lbrace) = true
        · simp only [hc, if_true]
          cases cs with
          | nil => rfl
          | cons c2 cs2 =>
            by_cases hc2 : (c2 == lbrace) = true
            · simp only [hc2, if_true]
              rcases hp : findClose cs2 with _ | ⟨cap, rest⟩
              · simp only
                have hl : (c2 :: cs2).length ≤ f1 := by simp at h1 ⊢; omega
                have hl2 : (c2 :: cs2).length ≤ f2 := by simp at h2 ⊢; omega
                rw [ih f2 (c2 :: cs2) hl hl2]
              · simp only
                have hrest := findClose_length _ _ _ hp
                have hl : rest.length ≤ f1 := by simp at h1; omega
                have hl2 : rest.length ≤ f2 := by simp at h2; omega
                rw [ih f2 rest hl hl2]
            · have hl : (c2 :: cs2).length ≤ f1 := by simp at h1 ⊢; omega
              have hl2 : (c2 :: cs2).length ≤ f2 := by simp at h2 ⊢; omega
              simp [hc2, ih f2 (c2 :: cs2) hl hl2]
        · have hl : cs.length ≤ f1 := by simp at h1; omega
          have hl2 : cs.length ≤ f2 := by simp at h2; omega
          simp [hc, ih f2 cs hl hl2]

theorem scanEC_nil (data : Bag) : scanEC data [] = ([], []) := rfl

theorem scanEC_other (data : Bag) (c : Char) (cs : List Char)
    (h : (c == lbrace) = false) :
    scanEC data (c :: cs) =
      ((scanEC data cs).1.cons c, (scanEC data cs).2) := by
  unfold scanEC
  simp [scanECFuel, h]

theorem scanEC_token (data : Bag) (cs2 : List Char) (cap rest : List Char)
    (h : findClose cs2 = some (cap, rest)) :
    scanEC data (lbrace :: lbrace :: cs2) =
      (match data.lookup (String.mk cap) with
       | none => ((scanEC data rest).1, String.mk cap :: (scanEC data rest).2)
       | some JsVal.vNull => ((scanEC data rest).1, String.mk cap :: (scanEC data rest).2)
       | some v => ((jsToString v).data ++ (scanEC data rest).1,
                    (scanEC data rest).2)) := by
  have hrest := findClose_length _ _ _ h
  unfold scanEC
  simp only [List.length_cons, scanECFuel, beq_self_eq_true, if_true, h]
  rw [scanECFuel_congr data (cs2.length + 1) rest.length rest (by omega) (by omega)]

/-- The filesystem: an immutable map from full file paths to contents. -/
abbrev Disk := List (String × String)

/-- The path `path.join(this.templatesPath, lang, templateName + ".xhtml")`. -/
def templateFilePath (templatesPath lang templateName : String) : String :=
  templatesPath ++ (("/")) ++ lang ++ (("/")) ++ templateName ++ ((".xhtml"))

/-- The composite key `lang/templateName` used by both the cache and the
in-memory template map in both classes. -/
def mkKey (lang templateName : String) : String :=
  lang ++ (("/")) ++ templateName

/-- Substring occurrence test (JS `String.prototype.includes`). -/
def leadsWith : List Char → List Char → Bool
  | [], _ => true
  | _ :: _, [] => false
  | a :: as, b :: bs => a == b && leadsWith as bs

def containsSeq (sub : List Char) : List Char → Bool
  | [] => sub.isEmpty
  | c :: cs => leadsWith sub (c :: cs) || containsSeq sub cs

/-- The validation of `TemplateEngine.#readTemplateFromDiskSync`:
a name is invalid when it is falsy (empty), contains `..`, or
contains `/` (the `typeof` check cannot fail in the model). -/
def validTemplateName (templateName : String) : Bool :=
  !(templateName == (("")))
    && !(containsSeq ((("..")).data) templateName.data)
    && !(containsSeq ((("/")).data) templateName.data)

/-- Errors raised by the TemplateEngine (identified by which `throw`
produced them, the dynamic data they mention kept as fields). -/
inductive TemplateError where
  | invalidTemplateName (templateName : String)
  | templateFileMissing (filePath : String)
  | templateNotFound (templateName lang : String)
  deriving DecidableEq

/-- Model of `TemplateEngine.#readTemplateFromDiskSync`: validates the name,
then `fs.existsSync` (one probe), then `fs.readFileSync` (one read).
Returns the outcome plus (probes, reads) performed. -/
def readTemplateFromDiskSync (templatesPath : String) (disk : Disk)
    (templateName lang : String) :
    Except TemplateError String × Nat × Nat :=
  if validTemplateName templateName = false then
    (Except.error (TemplateError.invalidTemplateName templateName), 0, 0)
  else
    match disk.lookup (templateFilePath templatesPath lang templateName) with
    | none =>
      (Except.error (TemplateError.templateFileMissing
        (templateFilePath templatesPath lang templateName)), 1, 0)
    | some content => (Except.ok content, 1, 1)

/-- The `TemplateEngine` class state (constructor-initialized fields;
`defaults` is already merged with the built-in fallback values). -/
structure TemplateEngine where
  defaultLang : String
  templatesPath : String
  defaults : Bag
  cache : List (String × String)
  memoryTemplates : List (String × String)
  deriving DecidableEq

/-- JS `String.prototype.toLowerCase` (character-wise; the model's
languages are ASCII). -/
def lowerString (s : String) : String :=
  String.mk (s.data.map Char.toLower)

/-- Model of `TemplateEngine.#getLangCandidates`. -/
def getLangCandidates (defaultLang lang : String) : List String :=
  let normalized := lowerString (if lang == (("")) then defaultLang else lang)
  let l1 := [normalized]
  let l2 := if normalized == (("en")) then l1 ++ [(("en-EN")), (("en-US"))] else l1
  if normalized == (("fr")) then l2 ++ [(("fr-FR"))] else l2

/-- Model of `TemplateEngine.registerTemplateString`. -/
def TemplateEngine.registerTemplateString (e : TemplateEngine)
    (templateName templateString lang : String) : TemplateEngine :=
  { e with memoryTemplates := (mkKey lang templateName, templateString) :: e.memoryTemplates }

/-- Model of `TemplateEngine.clearCache`. -/
def TemplateEngine.clearCache (e : TemplateEngine) : TemplateEngine :=
  { e with cache := [] }

/-- One candidate loop of `TemplateEngine.load`: for each candidate in
order, check the in-memory map, then the cache, then try a disk read
(catching its errors and moving on). On a disk hit the cache is
populated under that candidate's key. Returns the hit (value plus the
possibly-extended cache) and the (probes, reads) performed. -/
def loadLoop (templatesPath : String) (mem cache : List (String × String))
    (disk : Disk) (templateName : String) :
    List String → Option (String × List (String × String)) × Nat × Nat
  | [] => (none, 0, 0)
  | cand :: rest =>
    let key := mkKey cand templateName
    match mem.lookup key with
    | some tpl => (some (tpl, cache), 0, 0)
    | none =>
      match cache.lookup key with
      | some tpl => (some (tpl, cache), 0, 0)
      | none =>
        match readTemplateFromDiskSync templatesPath disk templateName cand with
        | (Except.ok tpl, p, rd) => (some (tpl, (key, tpl) :: cache), p, rd)
        | (Except.error _, p, rd) =>
          let r := loadLoop templatesPath mem cache disk templateName rest
          (r.1, p + r.2.1, rd + r.2.2)

instance decEqExcept {e a : Type} [DecidableEq e] [DecidableEq a] :
    DecidableEq (Except e a) := fun x y =>
  match x, y with
  | Except.ok u, Except.ok v =>
    if h : u = v then Decidable.isTrue (by rw [h])
    else Decidable.isFalse (fun hc => h (Except.ok.inj hc))
  | Except.error u, Except.error v =>
    if h : u = v then Decidable.isTrue (by rw [h])
    else Decidable.isFalse (fun hc => h (Except.error.inj hc))
  | Except.ok _, Except.error _ => Decidable.isFalse (fun hc => Except.noConfusion hc)
  | Except.error _, Except.ok _ => Decidable.isFalse (fun hc => Except.noConfusion hc)

/-- Outcome of a `load` call: result, engine state afterwards, and the
number of `existsSync` probes and `readFileSync` reads performed. -/
structure LoadOut where
  result : Except TemplateError String
  state : TemplateEngine
  probes : Nat
  reads : Nat
  deriving DecidableEq

/-- Model of `TemplateEngine.load`: requested-language candidates first, then
the default-language candidates, then the final `Template not found`
error. -/
def TemplateEngine.load (e : TemplateEngine) (disk : Disk)
    (templateName : String) (lang : String) : LoadOut :=
  let candidates := getLangCandidates e.defaultLang lang
  match loadLoop e.templatesPath e.memoryTemplates e.cache disk templateName candidates with
  | (some (tpl, cache2), p, rd) =>
    ⟨Except.ok tpl, { e with cache := cache2 }, p, rd⟩
  | (none, p, rd) =>
    let fallbacks := getLangCandidates e.defaultLang e.defaultLang
    match loadLoop e.templatesPath e.memoryTemplates e.cache disk templateName fallbacks with
    | (some (tpl, cache2), p2, rd2) =>
      ⟨Except.ok tpl, { e with cache := cache2 }, p + p2, rd + rd2⟩
    | (none, p2, rd2) =>
      ⟨Except.error (TemplateError.templateNotFound templateName lang),
        e, p + p2, rd + rd2⟩

/-- Model of `TemplateEngine.replaceVariables`: merge the defaults under the variables
(caller wins) and run the replacement scan. -/
def TemplateEngine.replaceVariables (e : TemplateEngine)
    (template : String) (vars : Bag) : SubstResult :=
  let data := vars ++ e.defaults
  let r := scanTE data template.data
  ⟨String.mk r.1, r.2⟩

/-- Model of `TemplateEngine.render` = `load` + `replaceVariables`; the pair is
the produced value and the engine state afterwards. -/
def TemplateEngine.render (e : TemplateEngine) (disk : Disk)
    (templateName : String) (vars : Bag) (lang : String) :
    Except TemplateError SubstResult × TemplateEngine :=
  let out := e.load disk templateName lang
  match out.result with
  | Except.ok tpl => (Except.ok (out.state.replaceVariables tpl vars), out.state)
  | Except.error err => (Except.error err, out.state)

/-- The single error kind of EmailClient's template path. -/
inductive ECError where
  | templateNotFound (templateName lang : String)
  deriving DecidableEq

/-- The `EmailClient` class state (template-engine-relevant fields only;
the transporter, subjects registry and send paths have no bearing on
the claims about template compilation). -/
structure EmailClient where
  defaultLang : String
  defaults : Bag
  templatesPath : String
  cache : List (String × String)
  memoryTemplates : List (String × String)
  deriving DecidableEq

/-- Model of `EmailClient.registerTemplateString`. -/
def EmailClient.registerTemplateString (c : EmailClient)
    (templateName templateString lang : String) : EmailClient :=
  { c with memoryTemplates := (mkKey lang templateName, templateString) :: c.memoryTemplates }

/-- Model of `EmailClient.clearCache`. -/
def EmailClient.clearCache (c : EmailClient) : EmailClient :=
  { c with cache := [] }

/-- Model of `EmailClient.#readTemplateFromDiskSync` (no name validation here). -/
def ecReadTemplateFromDiskSync (templatesPath : String) (disk : Disk)
    (templateName lang : String) : Except String String × Nat × Nat :=
  match disk.lookup (templateFilePath templatesPath lang templateName) with
  | none =>
    (Except.error (templateFilePath templatesPath lang templateName), 1, 0)
  | some content => (Except.ok content, 1, 1)

/-- Outcome of `EmailClient.#loadTemplate`. -/
structure ECLoadOut where
  result : Except ECError String
  state : EmailClient
  probes : Nat
  reads : Nat
  deriving DecidableEq

/-- Model of `EmailClient.#loadTemplate`: memory, then cache, then one disk
attempt under the exact requested language (no candidates, no
fallback); any disk failure becomes `templateNotFound`. -/
def EmailClient.loadTemplate (c : EmailClient) (disk : Disk)
    (templateName : String) (lang : String) : ECLoadOut :=
  let key := mkKey lang templateName
  match c.memoryTemplates.lookup key with
  | some tpl => ⟨Except.ok tpl, c, 0, 0⟩
  | none =>
    match c.cache.lookup key with
    | some tpl => ⟨Except.ok tpl, c, 0, 0⟩
    | none =>
      match ecReadTemplateFromDiskSync c.templatesPath disk templateName lang with
      | (Except.ok tpl, p, rd) =>
        ⟨Except.ok tpl, { c with cache := (key, tpl) :: c.cache }, p, rd⟩
      | (Except.error _, p, rd) =>
        ⟨Except.error (ECError.templateNotFound templateName lang), c, p, rd⟩

/-- Model of `EmailClient.#replaceVariables` (lazy key grammar, no escaping). -/
def EmailClient.replaceVariables (c : EmailClient)
    (template : String) (vars : Bag) : SubstResult :=
  let data := vars ++ c.defaults
  let r := scanEC data template.data
  ⟨String.mk r.1, r.2⟩

/-- Model of `EmailClient.compileTemplate` = `#loadTemplate` + `#replaceVariables`. -/
def EmailClient.compileTemplate (c : EmailClient) (disk : Disk)
    (templateName : String) (lang : String) (vars : Bag) :
    Except ECError SubstResult × EmailClient :=
  let out := c.loadTemplate disk templateName lang
  match out.result with
  | Except.ok tpl => (Except.ok (out.state.replaceVariables tpl vars), out.state)
  | Except.error err => (Except.error err, out.state)

/-- A template presented as alternating literal text and placeholder
tokens; `segsStr` is the underlying string.  Well-formed segments
(`segWF`) have brace-free literals and identifier keys, i.e. exactly
the token grammar `\x7b\x7bIDENTIFIER\x7d\x7d` of the specification. -/
inductive Seg where
  | lit (s : String)
  | var (k : String)
  deriving DecidableEq

/-- Key shape `[a-zA-Z_][a-zA-Z0-9_]*`. -/
def identOK (k : String) : Bool :=
  match k.data with
  | [] => false
  | c :: cs => isIdentStart c && cs.all isIdentChar

def segWF : Seg → Bool
  | Seg.lit s => s.data.all (fun c => !(c == lbrace))
  | Seg.var k => identOK k

def segsStr : List Seg → List Char
  | [] => []
  | Seg.lit s :: rest => s.data ++ segsStr rest
  | Seg.var k :: rest => lbrace :: lbrace :: (k.data ++ rbrace :: rbrace :: segsStr rest)

/-- Specification-shaped rendering over segments, with the
TemplateEngine's escaping of present values. -/
def segRenderTE (data : Bag) : List Seg → List Char × List String
  | [] => ([], [])
  | Seg.lit s :: rest =>
    let r := segRenderTE data rest
    (s.data ++ r.1, r.2)
  | Seg.var k :: rest =>
    let r := segRenderTE data rest
    match data.lookup k with
    | none => (r.1, k :: r.2)
    | some JsVal.vNull => (r.1, k :: r.2)
    | some v => ((escapeHtml (jsToString v)).data ++ r.1, r.2)

/-- Same, with EmailClient's raw (unescaped) insertion. -/
def segRenderEC (data : Bag) : List Seg → List Char × List String
  | [] => ([], [])
  | Seg.lit s :: rest =>
    let r := segRenderEC data rest
    (s.data ++ r.1, r.2)
  | Seg.var k :: rest =>
    let r := segRenderEC data rest
    match data.lookup k with
    | none => (r.1, k :: r.2)
    | some JsVal.vNull => (r.1, k :: r.2)
    | some v => ((jsToString v).data ++ r.1, r.2)

theorem identStart_identChar (c : Char) (h : isIdentStart c = true) :
    isIdentChar c = true := by
  simp [isIdentStart] at h
  rcases h with h | h
  · simp [isIdentChar, Char.isAlphanum, h]
  · simp [isIdentChar, h]

theorem identOK_facts (k : String) (h : identOK k = true) :
    k.data ≠ [] ∧ isIdentStart k.data.headI = true ∧
      ∀ c ∈ k.data, isIdentChar c = true := by
  unfold identOK at h
  rcases hd : k.data with _ | ⟨c, cs⟩
  · rw [hd] at h; simp at h
  · rw [hd] at h
    simp only [Bool.and_eq_true, List.all_eq_true] at h
    refine ⟨?_, ?_, ?_⟩
    · simp
    · simpa using h.1
    · intro x hx
      rcases List.mem_cons.mp hx with hx | hx
      · subst hx; exact identStart_identChar x h.1
      · exact h.2 x hx

theorem scanTE_lit_append (data : Bag) (s t : List Char)
    (h : ∀ c ∈ s, (c == lbrace) = false) :
    scanTE data (s ++ t) = (s ++ (scanTE data t).1, (scanTE data t).2) := by
  induction s with
  | nil => simp
  | cons c s ih =>
    have hc : (c == lbrace) = false := h c (by simp)
    have ih2 := ih (fun x hx => h x (by simp [hx]))
    rw [List.cons_append, scanTE_other data c (s ++ t) hc, ih2]
    simp

theorem scanTE_segs (data : Bag) (segs : List Seg)
    (h : ∀ s ∈ segs, segWF s = true) :
    scanTE data (segsStr segs) = segRenderTE data segs := by
  induction segs with
  | nil => rfl
  | cons sg rest ih =>
    have ih2 := ih (fun s hs => h s (by simp [hs]))
    cases sg with
    | lit s =>
      have hlit : ∀ c ∈ s.data, (c == lbrace) = false := by
        have := h (Seg.lit s) (by simp)
        simp [segWF, List.all_eq_true] at this
        intro c hc
        have := this c hc
        simp [this]
      rw [segsStr, segRenderTE, scanTE_lit_append data s.data (segsStr rest) hlit, ih2]
    | var k =>
      have hk := identOK_facts k (by have := h (Seg.var k) (by simp); simpa [segWF] using this)
      have htok := parseTEToken_of_ident k hk.1 hk.2.1 hk.2.2 (segsStr rest)
      rw [segsStr, scanTE_token data _ k (segsStr rest) htok, segRenderTE, ih2]

theorem scanEC_lit_append (data : Bag) (s t : List Char)
    (h : ∀ c ∈ s, (c == lbrace) = false) :
    scanEC data (s ++ t) = (s ++ (scanEC data t).1, (scanEC data t).2) := by
  induction s with
  | nil => simp
  | cons c s ih =>
    have hc : (c == lbrace) = false := h c (by simp)
    have ih2 := ih (fun x hx => h x (by simp [hx]))
    rw [List.cons_append, scanEC_other data c (s ++ t) hc, ih2]
    simp

theorem scanEC_segs (data : Bag) (segs : List Seg)
    (h : ∀ s ∈ segs, segWF s = true) :
    scanEC data (segsStr segs) = segRenderEC data segs := by
  induction segs with
  | nil => rfl
  | cons sg rest ih =>
    have ih2 := ih (fun s hs => h s (by simp [hs]))
    cases sg with
    | lit s =>
      have hlit : ∀ c ∈ s.data, (c == lbrace) = false := by
        have := h (Seg.lit s) (by simp)
        simp [segWF, List.all_eq_true] at this
        intro c hc
        have := this c hc
        simp [this]
      rw [segsStr, segRenderEC, scanEC_lit_append data s.data (segsStr rest) hlit, ih2]
    | var k =>
      have hk := identOK_facts k (by have := h (Seg.var k) (by simp); simpa [segWF] using this)
      have hfc := findClose_of_ident k.data hk.2.2 (segsStr rest)
      have hmk : String.mk k.data = k := rfl
      rw [segsStr, scanEC_token data _ k.data (segsStr rest) hfc, segRenderEC, ih2, hmk]

theorem lookup_mem {l : Bag} {k : String} {v : JsVal}
    (h : l.lookup k = some v) : (k, v) ∈ l := by
  induction l with
  | nil => simp [List.lookup] at h
  | cons p l ih =>
    cases p with
    | mk k2 v2 =>
      by_cases he : (k == k2) = true
      · simp [List.lookup, he] at h
        have : k = k2 := beq_iff_eq.mp he
        subst this
        subst h
        simp
      · have hb : (k == k2) = false := by simpa using he
        simp only [List.lookup, hb] at h
        exact List.mem_cons_of_mem _ (ih h)

/-- With only escape-free values in the bag, the escaped and the raw
renderings agree. -/
theorem segRender_eq_of_escape_free (data : Bag)
    (h : ∀ p ∈ data, escapeHtml (jsToString p.2) = jsToString p.2) :
    ∀ segs, segRenderTE data segs = segRenderEC data segs := by
  intro segs
  induction segs with
  | nil => rfl
  | cons sg rest ih =>
    cases sg with
    | lit s => rw [segRenderTE, segRenderEC, ih]
    | var k =>
      rw [segRenderTE, segRenderEC, ih]
      rcases hl : data.lookup k with _ | v
      · simp
      · cases v with
        | vNull => simp
        | vStr s => simp [h (k, JsVal.vStr s) (lookup_mem hl)]
        | vNum n => simp [h (k, JsVal.vNum n) (lookup_mem hl)]
        | vBool b => simp [h (k, JsVal.vBool b) (lookup_mem hl)]

theorem segRenderTE_append (data : Bag) (a b : List Seg) :
    segRenderTE data (a ++ b) =
      ((segRenderTE data a).1 ++ (segRenderTE data b).1,
       (segRenderTE data a).2 ++ (segRenderTE data b).2) := by
  induction a with
  | nil => simp [segRenderTE]
  | cons sg rest ih =>
    cases sg with
    | lit s => simp [segRenderTE, ih]
    | var k =>
      rw [List.cons_append, segRenderTE, segRenderTE, ih]
      rcases hl : data.lookup k with _ | v
      · simp
      · cases v <;> simp

theorem segRenderEC_append (data : Bag) (a b : List Seg) :
    segRenderEC data (a ++ b) =
      ((segRenderEC data a).1 ++ (segRenderEC data b).1,
       (segRenderEC data a).2 ++ (segRenderEC data b).2) := by
  induction a with
  | nil => simp [segRenderEC]
  | cons sg rest ih =>
    cases sg with
    | lit s => simp [segRenderEC, ih]
    | var k =>
      rw [List.cons_append, segRenderEC, segRenderEC, ih]
      rcases hl : data.lookup k with _ | v
      · simp
      · cases v <;> simp

theorem readDisk_error_reads (tp : String) (disk : Disk) (name cand : String)
    (e : TemplateError) (p rd : Nat)
    (h : readTemplateFromDiskSync tp disk name cand = (Except.error e, p, rd)) :
    rd = 0 := by
  unfold readTemplateFromDiskSync at h
  by_cases hv : validTemplateName name = false
  · rw [if_pos hv] at h
    injection h with h1 h2
    injection h2 with h3 h4
    exact h4.symm
  · rw [if_neg hv] at h
    rcases hl : disk.lookup (templateFilePath tp cand name) with _ | content <;> rw [hl] at h
    · injection h with h1 h2
      injection h2 with h3 h4
      exact h4.symm
    · simp at h

theorem readDisk_invalid (tp : String) (disk : Disk) (name cand : String)
    (h : validTemplateName name = false) :
    readTemplateFromDiskSync tp disk name cand =
      (Except.error (TemplateError.invalidTemplateName name), 0, 0) := by
  unfold readTemplateFromDiskSync
  rw [if_pos h]

theorem loadLoop_invalid_counts (tp : String) (mem cache : List (String × String))
    (disk : Disk) (name : String) (h : validTemplateName name = false) :
    ∀ l, (loadLoop tp mem cache disk name l).2.1 = 0 ∧
      (loadLoop tp mem cache disk name l).2.2 = 0 := by
  intro l
  induction l with
  | nil => simp [loadLoop]
  | cons cand rest ih =>
    simp only [loadLoop]
    rcases hm : mem.lookup (mkKey cand name) with _ | tpl
    · rcases hc : cache.lookup (mkKey cand name) with _ | tpl
      · simp only [readDisk_invalid tp disk name cand h]
        simp [ih]
      · simp
    · simp

theorem loadLoop_invalid_empty (tp : String) (disk : Disk) (name : String)
    (h : validTemplateName name = false) :
    ∀ l, (loadLoop tp [] [] disk name l).1 = none := by
  intro l
  induction l with
  | nil => simp [loadLoop]
  | cons cand rest ih =>
    simp only [loadLoop]
    simp only [List.lookup]
    simp only [readDisk_invalid tp disk name cand h]
    simpa using ih

theorem loadLoop_cache_shape (tp : String) (mem cache : List (String × String))
    (disk : Disk) (name : String) :
    ∀ l t cache2, (loadLoop tp mem cache disk name l).1 = some (t, cache2) →
      cache2 = cache ∨ ∃ k2, cache2 = (k2, t) :: cache := by
  intro l
  induction l with
  | nil =>
    intro t cache2 h
    simp [loadLoop] at h
  | cons cand rest ih =>
    intro t cache2 h
    simp only [loadLoop] at h
    rcases hm : mem.lookup (mkKey cand name) with _ | tpl
    · simp only [hm] at h
      rcases hc : cache.lookup (mkKey cand name) with _ | tpl2
      · simp only [hc] at h
        rcases hr : readTemplateFromDiskSync tp disk name cand with ⟨res, p, rd⟩
        cases res with
        | ok tpl3 =>
          simp only [hr] at h
          simp at h
          right
          exact ⟨mkKey cand name, by rw [← h.2, h.1]⟩
        | error e =>
          simp only [hr] at h
          exact ih t cache2 h
      · simp only [hc] at h
        simp at h
        left
        exact h.2.symm
    · simp only [hm] at h
      simp at h
      left
      exact h.2.symm

theorem loadLoop_none_reads (tp : String) (mem cache : List (String × String))
    (disk : Disk) (name : String) :
    ∀ l, (loadLoop tp mem cache disk name l).1 = none →
      (loadLoop tp mem cache disk name l).2.2 = 0 := by
  intro l
  induction l with
  | nil => intro h; simp [loadLoop]
  | cons cand rest ih =>
    intro h
    simp only [loadLoop] at h ⊢
    rcases hm : mem.lookup (mkKey cand name) with _ | tpl
    · simp only [hm] at h ⊢
      rcases hc : cache.lookup (mkKey cand name) with _ | tpl2
      · simp only [hc] at h ⊢
        rcases hr : readTemplateFromDiskSync tp disk name cand with ⟨res, p, rd⟩
        cases res with
        | ok tpl3 =>
          simp only [hr] at h
          simp at h
        | error e =>
          simp only [hr] at h ⊢
          have hrd : rd = 0 := readDisk_error_reads tp disk name cand e p rd hr
          simp [hrd, ih h]
      · simp only [hc] at h
        simp at h
    · simp only [hm] at h
      simp at h

theorem loadLoop_rerun_success (tp : String) (mem cache : List (String × String))
    (disk : Disk) (name : String) :
    ∀ l t cache2, (loadLoop tp mem cache disk name l).1 = some (t, cache2) →
      (loadLoop tp mem cache2 disk name l).1 = some (t, cache2) ∧
      (loadLoop tp mem cache2 disk name l).2.2 = 0 := by
  intro l
  induction l with
  | nil =>
    intro t cache2 h
    simp [loadLoop] at h
  | cons cand rest ih =>
    intro t cache2 h
    have hshape := loadLoop_cache_shape tp mem cache disk name (cand :: rest) t cache2 h
    simp only [loadLoop] at h ⊢
    rcases hm : mem.lookup (mkKey cand name) with _ | tpl
    · simp only [hm] at h ⊢
      rcases hc : cache.lookup (mkKey cand name) with _ | tpl2
      · simp only [hc] at h
        rcases hr : readTemplateFromDiskSync tp disk name cand with ⟨res, p, rd⟩
        cases res with
        | ok tpl3 =>
          simp only [hr] at h
          simp at h
          have hck : cache2.lookup (mkKey cand name) = some t := by
            rw [← h.2]
            simp [List.lookup]
            exact h.1
          simp only [hck]
          simp
        | error e =>
          simp only [hr] at h
          have hrec := ih t cache2 h
          rcases hck : cache2.lookup (mkKey cand name) with _ | u
          · simp only [hck, hr]
            have hrd : rd = 0 := readDisk_error_reads tp disk name cand e p rd hr
            simp [hrec.1, hrec.2, hrd]
          · have hu : u = t := by
              rcases hshape with hs | ⟨k2, hs⟩
              · rw [hs, hc] at hck
                exact absurd hck (by simp)
              · rw [hs] at hck
                by_cases hk : (mkKey cand name == k2) = true
                · simp [List.lookup, hk] at hck
                  exact hck.symm
                · have hk2 : (mkKey cand name == k2) = false := by simpa using hk
                  simp only [List.lookup, hk2] at hck
                  rw [hc] at hck
                  exact absurd hck (by simp)
            subst hu
            simp only [hck]
            simp
      · simp only [hc] at h
        simp at h
        have hck : cache2.lookup (mkKey cand name) = some t := by
          rw [← h.2, hc, h.1]
        simp only [hck]
        simp
    · simp only [hm] at h
      simp at h
      simp [h.1]

theorem loadLoop_none_rerun (tp : String) (mem cache : List (String × String))
    (disk : Disk) (name : String) :
    ∀ l k2 t, (loadLoop tp mem cache disk name l).1 = none →
      ((loadLoop tp mem ((k2, t) :: cache) disk name l).1 = none ∨
       (loadLoop tp mem ((k2, t) :: cache) disk name l).1 = some (t, (k2, t) :: cache)) ∧
      (loadLoop tp mem ((k2, t) :: cache) disk name l).2.2 = 0 := by
  intro l
  induction l with
  | nil =>
    intro k2 t h
    simp [loadLoop]
  | cons cand rest ih =>
    intro k2 t h
    simp only [loadLoop] at h ⊢
    rcases hm : mem.lookup (mkKey cand name) with _ | tpl
    · simp only [hm] at h ⊢
      rcases hc : cache.lookup (mkKey cand name) with _ | tpl2
      · simp only [hc] at h
        rcases hr : readTemplateFromDiskSync tp disk name cand with ⟨res, p, rd⟩
        cases res with
        | ok tpl3 =>
          simp only [hr] at h
          simp at h
        | error e =>
          simp only [hr] at h
          have hrd : rd = 0 := readDisk_error_reads tp disk name cand e p rd hr
          by_cases hk : (mkKey cand name == k2) = true
          · have hck : ((k2, t) :: cache).lookup (mkKey cand name) = some t := by
              simp [List.lookup, hk]
            simp only [hck]
            simp
          · have hk2 : (mkKey cand name == k2) = false := by simpa using hk
            have hck : ((k2, t) :: cache).lookup (mkKey cand name) = none := by
              simp only [List.lookup, hk2]
              exact hc
            simp only [hck, hr]
            have hrec := ih k2 t h
            rcases hrec with ⟨hd, hrd2⟩
            constructor
            · rcases hd with hd | hd
              · left; simpa using hd
              · right; simpa using hd
            · simp [hrd, hrd2]
      · simp only [hc] at h
        simp at h
    · simp only [hm] at h
      simp at h

theorem load_eq_first (e : TemplateEngine) (disk : Disk) (name lang tpl : String)
    (cache2 : List (String × String)) (p rd : Nat)
    (h : loadLoop e.templatesPath e.memoryTemplates e.cache disk name
      (getLangCandidates e.defaultLang lang) = (some (tpl, cache2), p, rd)) :
    e.load disk name lang = ⟨Except.ok tpl, { e with cache := cache2 }, p, rd⟩ := by
  unfold TemplateEngine.load
  simp only [h]

theorem load_eq_fallback (e : TemplateEngine) (disk : Disk) (name lang tpl : String)
    (cache2 : List (String × String)) (p1 rd1 p2 rd2 : Nat)
    (h1 : loadLoop e.templatesPath e.memoryTemplates e.cache disk name
      (getLangCandidates e.defaultLang lang) = (none, p1, rd1))
    (h2 : loadLoop e.templatesPath e.memoryTemplates e.cache disk name
      (getLangCandidates e.defaultLang e.defaultLang) = (some (tpl, cache2), p2, rd2)) :
    e.load disk name lang =
      ⟨Except.ok tpl, { e with cache := cache2 }, p1 + p2, rd1 + rd2⟩ := by
  unfold TemplateEngine.load
  simp only [h1, h2]

theorem load_eq_none (e : TemplateEngine) (disk : Disk) (name lang : String)
    (p1 rd1 p2 rd2 : Nat)
    (h1 : loadLoop e.templatesPath e.memoryTemplates e.cache disk name
      (getLangCandidates e.defaultLang lang) = (none, p1, rd1))
    (h2 : loadLoop e.templatesPath e.memoryTemplates e.cache disk name
      (getLangCandidates e.defaultLang e.defaultLang) = (none, p2, rd2)) :
    e.load disk name lang =
      ⟨Except.error (TemplateError.templateNotFound name lang), e, p1 + p2, rd1 + rd2⟩ := by
  unfold TemplateEngine.load
  simp only [h1, h2]

theorem load_second (e : TemplateEngine) (disk : Disk) (name lang t : String)
    (h : (e.load disk name lang).result = Except.ok t) :
    ((e.load disk name lang).state.load disk name lang).result = Except.ok t ∧
    ((e.load disk name lang).state.load disk name lang).reads = 0 ∧
    ((e.load disk name lang).state.load disk name lang).state =
      (e.load disk name lang).state := by
  rcases h1 : loadLoop e.templatesPath e.memoryTemplates e.cache disk name
      (getLangCandidates e.defaultLang lang) with ⟨r1, p1, rd1⟩
  cases r1 with
  | some pr =>
    rcases pr with ⟨tpl, cache2⟩
    have hload := load_eq_first e disk name lang tpl cache2 p1 rd1 h1
    rw [hload] at h
    simp only at h
    have ht : tpl = t := by simpa using h
    have hre := loadLoop_rerun_success e.templatesPath e.memoryTemplates e.cache
      disk name (getLangCandidates e.defaultLang lang) tpl cache2 (by rw [h1])
    rcases h2 : loadLoop e.templatesPath e.memoryTemplates cache2 disk name
      (getLangCandidates e.defaultLang lang) with ⟨r2, p2, rd2⟩
    rw [h2] at hre
    simp only at hre
    have hr2 : r2 = some (tpl, cache2) := hre.1
    have hrd2 : rd2 = 0 := hre.2
    subst hr2
    have hload2 := load_eq_first ({ e with cache := cache2 }) disk name lang tpl cache2
      p2 rd2 (by exact h2)
    rw [hload, hload2]
    refine ⟨by rw [ht], by simpa using hrd2, rfl⟩
  | none =>
    have hrd1 : rd1 = 0 := by
      have := loadLoop_none_reads e.templatesPath e.memoryTemplates e.cache disk name
        (getLangCandidates e.defaultLang lang) (by rw [h1])
      rw [h1] at this
      simpa using this
    rcases h2 : loadLoop e.templatesPath e.memoryTemplates e.cache disk name
      (getLangCandidates e.defaultLang e.defaultLang) with ⟨r2, p2, rd2⟩
    cases r2 with
    | none =>
      have hload := load_eq_none e disk name lang p1 rd1 p2 rd2 h1 h2
      rw [hload] at h
      simp at h
    | some pr =>
      rcases pr with ⟨tpl, cache2⟩
      have hload := load_eq_fallback e disk name lang tpl cache2 p1 rd1 p2 rd2 h1 h2
      rw [hload] at h
      have ht : tpl = t := by simpa using h
      have hshape := loadLoop_cache_shape e.templatesPath e.memoryTemplates e.cache
        disk name (getLangCandidates e.defaultLang e.defaultLang) tpl cache2 (by rw [h2])
      rcases hshape with hs | ⟨k2, hs⟩
      · subst hs
        have hre := loadLoop_rerun_success e.templatesPath e.memoryTemplates e.cache
          disk name (getLangCandidates e.defaultLang e.defaultLang) tpl e.cache (by rw [h2])
        rw [h2] at hre
        simp only at hre
        have hrd2 : rd2 = 0 := hre.2
        have heta : ({ e with cache := e.cache } : TemplateEngine) = e := rfl
        have hload2 := load_eq_fallback ({ e with cache := e.cache }) disk name lang tpl
          e.cache p1 rd1 p2 rd2 (by exact h1) (by exact h2)
        rw [hload, hload2]
        refine ⟨by rw [ht], by simp [hrd1, hrd2], rfl⟩
      · subst hs
        have hnone := loadLoop_none_rerun e.templatesPath e.memoryTemplates e.cache
          disk name (getLangCandidates e.defaultLang lang) k2 tpl (by rw [h1])
        rcases h3 : loadLoop e.templatesPath e.memoryTemplates ((k2, tpl) :: e.cache)
          disk name (getLangCandidates e.defaultLang lang) with ⟨r3, p3, rd3⟩
        rw [h3] at hnone
        simp only at hnone
        rcases hnone with ⟨hd, hrd3⟩
        rcases hd with hd | hd
        · subst hd
          have hre := loadLoop_rerun_success e.templatesPath e.memoryTemplates e.cache
            disk name (getLangCandidates e.defaultLang e.defaultLang) tpl
            ((k2, tpl) :: e.cache) (by rw [h2])
          rcases h4 : loadLoop e.templatesPath e.memoryTemplates ((k2, tpl) :: e.cache)
            disk name (getLangCandidates e.defaultLang e.defaultLang) with ⟨r4, p4, rd4⟩
          rw [h4] at hre
          simp only at hre
          have hr4 : r4 = some (tpl, (k2, tpl) :: e.cache) := hre.1
          have hrd4 : rd4 = 0 := hre.2
          subst hr4
          have hload2 := load_eq_fallback ({ e with cache := (k2, tpl) :: e.cache })
            disk name lang tpl ((k2, tpl) :: e.cache) p3 rd3 p4 rd4 (by exact h3) (by exact h4)
          rw [hload, hload2]
          refine ⟨by rw [ht], by simp [hrd3, hrd4], rfl⟩
        · subst hd
          have hload2 := load_eq_first ({ e with cache := (k2, tpl) :: e.cache })
            disk name lang tpl ((k2, tpl) :: e.cache) p3 rd3 (by exact h3)
          rw [hload, hload2]
          refine ⟨by rw [ht], by simpa using hrd3, rfl⟩

theorem getLangCandidates_head (defaultLang lang : String)
    (h1 : (lang == ((""))) = false) (h2 : lowerString lang = lang) :
    ∃ rest, getLangCandidates defaultLang lang = lang :: rest := by
  unfold getLangCandidates
  simp only [h1, Bool.false_eq_true, if_false, h2]
  by_cases he : (lang == (("en"))) = true
  · by_cases hf : (lang == (("fr"))) = true
    · exact ⟨[(("en-EN")), (("en-US")), (("fr-FR"))], by simp [he, hf]⟩
    · exact ⟨[(("en-EN")), (("en-US"))], by simp [he, hf]⟩
  · by_cases hf : (lang == (("fr"))) = true
    · exact ⟨[(("fr-FR"))], by simp [he, hf]⟩
    · exact ⟨[], by simp [he, hf]⟩

/-- An in-memory entry under the exact (lowercase) requested language is
returned by `load` at the very first candidate, whatever the cache and
the disk contain. -/
theorem load_memory_first (e : TemplateEngine) (disk : Disk) (name lang body : String)
    (h1 : (lang == ((""))) = false) (h2 : lowerString lang = lang)
    (h3 : e.memoryTemplates.lookup (mkKey lang name) = some body) :
    (e.load disk name lang).result = Except.ok body := by
  obtain ⟨rest, hc⟩ := getLangCandidates_head e.defaultLang lang h1 h2
  unfold TemplateEngine.load
  simp only [hc, loadLoop, h3]

/-- What one candidate can produce, independent of the loop: memory
first, cache second, disk read third. -/
def candHit (tp : String) (mem cache : List (String × String))
    (disk : Disk) (name cand : String) : Option String :=
  match mem.lookup (mkKey cand name) with
  | some t => some t
  | none =>
    match cache.lookup (mkKey cand name) with
    | some t => some t
    | none =>
      match readTemplateFromDiskSync tp disk name cand with
      | (Except.ok t, _, _) => some t
      | (Except.error _, _, _) => none

theorem loadLoop_findSome (tp : String) (mem cache : List (String × String))
    (disk : Disk) (name : String) :
    ∀ l, ((loadLoop tp mem cache disk name l).1).map Prod.fst =
      l.findSome? (candHit tp mem cache disk name) := by
  intro l
  induction l with
  | nil => simp [loadLoop]
  | cons cand rest ih =>
    rw [List.findSome?_cons]
    simp only [loadLoop]
    unfold candHit
    rcases hm : mem.lookup (mkKey cand name) with _ | t
    · simp only [hm]
      rcases hc : cache.lookup (mkKey cand name) with _ | t2
      · simp only [hc]
        rcases hr : readTemplateFromDiskSync tp disk name cand with ⟨res, p, rd⟩
        cases res with
        | ok t3 => simp only [hr]; simp
        | error e2 => simp only [hr]; simpa using ih
      · simp only [hc]; simp
    · simp only [hm]; simp

theorem load_error_frame (e : TemplateEngine) (disk : Disk) (name lang : String)
    (err : TemplateError) (h : (e.load disk name lang).result = Except.error err) :
    (e.load disk name lang).state = e := by
  rcases h1 : loadLoop e.templatesPath e.memoryTemplates e.cache disk name
      (getLangCandidates e.defaultLang lang) with ⟨r1, p1, rd1⟩
  cases r1 with
  | some pr =>
    rcases pr with ⟨tpl, cache2⟩
    rw [load_eq_first e disk name lang tpl cache2 p1 rd1 h1] at h
    simp at h
  | none =>
    rcases h2 : loadLoop e.templatesPath e.memoryTemplates e.cache disk name
      (getLangCandidates e.defaultLang e.defaultLang) with ⟨r2, p2, rd2⟩
    cases r2 with
    | some pr =>
      rcases pr with ⟨tpl, cache2⟩
      rw [load_eq_fallback e disk name lang tpl cache2 p1 rd1 p2 rd2 h1 h2] at h
      simp at h
    | none =>
      rw [load_eq_none e disk name lang p1 rd1 p2 rd2 h1 h2]

theorem load_state_frame (e : TemplateEngine) (disk : Disk) (name lang : String) :
    (e.load disk name lang).state.defaultLang = e.defaultLang ∧
    (e.load disk name lang).state.templatesPath = e.templatesPath ∧
    (e.load disk name lang).state.defaults = e.defaults ∧
    (e.load disk name lang).state.memoryTemplates = e.memoryTemplates := by
  rcases h1 : loadLoop e.templatesPath e.memoryTemplates e.cache disk name
      (getLangCandidates e.defaultLang lang) with ⟨r1, p1, rd1⟩
  cases r1 with
  | some pr =>
    rcases pr with ⟨tpl, cache2⟩
    rw [load_eq_first e disk name lang tpl cache2 p1 rd1 h1]
    exact ⟨rfl, rfl, rfl, rfl⟩
  | none =>
    rcases h2 : loadLoop e.templatesPath e.memoryTemplates e.cache disk name
      (getLangCandidates e.defaultLang e.defaultLang) with ⟨r2, p2, rd2⟩
    cases r2 with
    | some pr =>
      rcases pr with ⟨tpl, cache2⟩
      rw [load_eq_fallback e disk name lang tpl cache2 p1 rd1 p2 rd2 h1 h2]
      exact ⟨rfl, rfl, rfl, rfl⟩
    | none =>
      rw [load_eq_none e disk name lang p1 rd1 p2 rd2 h1 h2]
      exact ⟨rfl, rfl, rfl, rfl⟩

theorem ecLoad_memory (c : EmailClient) (disk : Disk) (name lang body : String)
    (h : c.memoryTemplates.lookup (mkKey lang name) = some body) :
    c.loadTemplate disk name lang = ⟨Except.ok body, c, 0, 0⟩ := by
  unfold EmailClient.loadTemplate
  simp only [h]

theorem ecLoad_second (c : EmailClient) (disk : Disk) (name lang t : String)
    (h : (c.loadTemplate disk name lang).result = Except.ok t) :
    ((c.loadTemplate disk name lang).state.loadTemplate disk name lang).result = Except.ok t ∧
    ((c.loadTemplate disk name lang).state.loadTemplate disk name lang).reads = 0 ∧
    ((c.loadTemplate disk name lang).state.loadTemplate disk name lang).state =
      (c.loadTemplate disk name lang).state := by
  unfold EmailClient.loadTemplate at h ⊢
  rcases hm : c.memoryTemplates.lookup (mkKey lang name) with _ | tpl
  · simp only [hm] at h ⊢
    rcases hc : c.cache.lookup (mkKey lang name) with _ | tpl2
    · simp only [hc] at h ⊢
      rcases hr : ecReadTemplateFromDiskSync c.templatesPath disk name lang with ⟨res, p, rd⟩
      cases res with
      | ok tpl3 =>
        simp only [hr] at h ⊢
        have ht : tpl3 = t := by simpa using h
        subst ht
        have hck : ((mkKey lang name, tpl3) :: c.cache).lookup (mkKey lang name)
            = some tpl3 := by simp [List.lookup]
        simp only [hm, hck]
        refine ⟨?_, ?_, ?_⟩ <;> simp
      | error e2 =>
        simp only [hr] at h
        simp at h
    · simp only [hc] at h ⊢
      simp only [hm, hc]
      have ht : tpl2 = t := by simpa using h
      subst ht
      refine ⟨?_, ?_, ?_⟩ <;> simp
  · simp only [hm] at h ⊢
    have ht : tpl = t := by simpa using h
    subst ht
    refine ⟨?_, ?_, ?_⟩ <;> simp

theorem ecLoad_error_frame (c : EmailClient) (disk : Disk) (name lang : String)
    (err : ECError) (h : (c.loadTemplate disk name lang).result = Except.error err) :
    (c.loadTemplate disk name lang).state = c := by
  unfold EmailClient.loadTemplate at h ⊢
  rcases hm : c.memoryTemplates.lookup (mkKey lang name) with _ | tpl
  · simp only [hm] at h ⊢
    rcases hc : c.cache.lookup (mkKey lang name) with _ | tpl2
    · simp only [hc] at h ⊢
      rcases hr : ecReadTemplateFromDiskSync c.templatesPath disk name lang with ⟨res, p, rd⟩
      cases res with
      | ok tpl3 =>
        simp only [hr] at h
        simp at h
      | error e2 =>
        simp only [hr] at h ⊢
    · simp only [hc] at h
      simp at h
  · simp only [hm] at h
    simp at h

theorem data_mk (l : List Char) : (String.mk l).data = l := rfl

theorem strmk_append (x y : List Char) :
    String.mk (x ++ y) = String.mk x ++ String.mk y := rfl

/-- Package `TemplateEngine.replaceVariables` on a segment-built
template as the segment rendering. -/
theorem replaceVariables_segs (e : TemplateEngine) (vars : Bag) (segs : List Seg)
    (hwf : ∀ s ∈ segs, segWF s = true) :
    e.replaceVariables (String.mk (segsStr segs)) vars =
      ⟨String.mk (segRenderTE (vars ++ e.defaults) segs).1,
       (segRenderTE (vars ++ e.defaults) segs).2⟩ := by
  unfold TemplateEngine.replaceVariables
  simp only [data_mk, scanTE_segs (vars ++ e.defaults) segs hwf]

/-- Package `EmailClient.#replaceVariables` on a segment-built template
as the raw segment rendering. -/
theorem ecReplaceVariables_segs (c : EmailClient) (vars : Bag) (segs : List Seg)
    (hwf : ∀ s ∈ segs, segWF s = true) :
    c.replaceVariables (String.mk (segsStr segs)) vars =
      ⟨String.mk (segRenderEC (vars ++ c.defaults) segs).1,
       (segRenderEC (vars ++ c.defaults) segs).2⟩ := by
  unfold EmailClient.replaceVariables
  simp only [data_mk, scanEC_segs (vars ++ c.defaults) segs hwf]

/-- Fixture: a TemplateEngine with default language `en`, templates
root `T`, no defaults, empty cache, no registrations. -/
def engEmpty : TemplateEngine := ⟨(("en")), (("T")), [], [], []⟩

/-- Fixture: the matching EmailClient. -/
def clientEmpty : EmailClient := ⟨(("en")), [], (("T")), [], []⟩

/-- Fixture: a disk holding only `T/en-EN/welcome.xhtml`. -/
def diskEnEN : Disk := [((("T/en-EN/welcome.xhtml")), (("BODY")))]

/-- C1: the claim states that both substitution paths insert the
HTML-escaped string form of a present value. `TemplateEngine.replaceVariables`
does (first conjunct: the specification's own example evaluates to the escaped
form); but EmailClient's substitution (used by `compileTemplate`/`compileMail`)
inserts the raw value (second conjunct), contradicting the README's
"Automatically escaped" documentation of the same call path: the code has
no escaping at all in email-client.js line 183. -/
theorem C1_escaping_divergence :
    (engEmpty.replaceVariables (("Hi \x7b\x7bUSER_NAME\x7d\x7d"))
        [((("USER_NAME")), JsVal.vStr (("<script>alert(1)</script>")))]).output
      = (("Hi &lt;script&gt;alert(1)&lt;/script&gt;")) ∧
    (clientEmpty.replaceVariables (("Hi \x7b\x7bUSER_NAME\x7d\x7d"))
        [((("USER_NAME")), JsVal.vStr (("<script>alert(1)</script>")))]).output
      = (("Hi <script>alert(1)</script>")) := by decide

/-- C3: on the specification's P7 example the code always behaves
non-strictly: it substitutes the empty string for the absent key `B`,
returns the best-effort output `"x "` and records `B` as missing.
There is no strict path: the `strictMode` option documented in the
README and declared in types.d.ts is never read by either
substitution routine, so no input makes them abort with a
missing-variable error. -/
theorem C3_no_strict_mode :
    engEmpty.replaceVariables (("\x7b\x7bA\x7d\x7d \x7b\x7bB\x7d\x7d"))
        [((("A")), JsVal.vStr (("x")))]
      = ⟨(("x ")), [(("B"))]⟩ := by decide

/-- C2 counterexample: `load("../secret", "en")` (and `load("a/b", "en")`)
on a fresh engine fails with the generic `templateNotFound` error, not
with `invalidTemplateName` as the claim states: the candidate loop of
`load` catches the validation error thrown inside
`#readTemplateFromDiskSync` and falls through to the final error. -/
theorem C2_counterexample :
    (engEmpty.load [] (("../secret")) (("en"))).result
      = Except.error (TemplateError.templateNotFound (("../secret")) (("en"))) ∧
    (engEmpty.load [] (("../secret")) (("en"))).result
      ≠ Except.error (TemplateError.invalidTemplateName (("../secret"))) ∧
    (engEmpty.load [] (("a/b")) (("en"))).result
      = Except.error (TemplateError.templateNotFound (("a/b")) (("en"))) := by decide

/-- C2 amended: for an invalid template name (empty, containing `..` or
`/`), `load` performs no filesystem access at all (no `existsSync`
probe, no `readFileSync` read) — the validation does run before any
filesystem call — and, when nothing is registered in memory or cached,
the call fails, but with the generic `templateNotFound` error because
the candidate loop swallows the `invalidTemplateName` error thrown by
the disk reader. -/
theorem C2_invalid_name_no_fs (e : TemplateEngine) (disk : Disk) (name lang : String)
    (hinv : validTemplateName name = false) :
    (e.load disk name lang).probes = 0 ∧ (e.load disk name lang).reads = 0 ∧
    (e.memoryTemplates = [] → e.cache = [] →
      (e.load disk name lang).result
        = Except.error (TemplateError.templateNotFound name lang)) := by
  rcases h1 : loadLoop e.templatesPath e.memoryTemplates e.cache disk name
      (getLangCandidates e.defaultLang lang) with ⟨r1, p1, rd1⟩
  have hc1 := loadLoop_invalid_counts e.templatesPath e.memoryTemplates e.cache
    disk name hinv (getLangCandidates e.defaultLang lang)
  rw [h1] at hc1
  cases r1 with
  | some pr =>
    rcases pr with ⟨tpl, cache2⟩
    rw [load_eq_first e disk name lang tpl cache2 p1 rd1 h1]
    refine ⟨by simpa using hc1.1, by simpa using hc1.2, ?_⟩
    intro hm hc
    have hempty := loadLoop_invalid_empty e.templatesPath disk name hinv
      (getLangCandidates e.defaultLang lang)
    rw [hm, hc] at h1
    rw [h1] at hempty
    simp at hempty
  | none =>
    rcases h2 : loadLoop e.templatesPath e.memoryTemplates e.cache disk name
      (getLangCandidates e.defaultLang e.defaultLang) with ⟨r2, p2, rd2⟩
    have hc2 := loadLoop_invalid_counts e.templatesPath e.memoryTemplates e.cache
      disk name hinv (getLangCandidates e.defaultLang e.defaultLang)
    rw [h2] at hc2
    cases r2 with
    | some pr =>
      rcases pr with ⟨tpl, cache2⟩
      rw [load_eq_fallback e disk name lang tpl cache2 p1 rd1 p2 rd2 h1 h2]
      refine ⟨?_, ?_, ?_⟩
      · have := hc1.1
        have := hc2.1
        simp at *
        omega
      · have := hc1.2
        have := hc2.2
        simp at *
        omega
      · intro hm hc
        have hempty := loadLoop_invalid_empty e.templatesPath disk name hinv
          (getLangCandidates e.defaultLang e.defaultLang)
        rw [hm, hc] at h2
        rw [h2] at hempty
        simp at hempty
    | none =>
      rw [load_eq_none e disk name lang p1 rd1 p2 rd2 h1 h2]
      refine ⟨?_, ?_, fun _ _ => rfl⟩
      · have ha := hc1.1
        have hb := hc2.1
        simp at ha hb ⊢
        omega
      · have ha := hc1.2
        have hb := hc2.2
        simp at ha hb ⊢
        omega

/-- C2 amended, witnessed at the claim's own concrete input. -/
theorem C2_invalid_name_no_fs_witness :
    validTemplateName (("../secret")) = false ∧
    (engEmpty.load [] (("../secret")) (("en"))).probes = 0 ∧
    (engEmpty.load [] (("../secret")) (("en"))).reads = 0 ∧
    (engEmpty.load [] (("../secret")) (("en"))).result
      = Except.error (TemplateError.templateNotFound (("../secret")) (("en"))) := by
  have h := C2_invalid_name_no_fs engEmpty [] (("../secret")) (("en")) (by decide)
  exact ⟨by decide, h.1, h.2.1, h.2.2 rfl rfl⟩

/-- C4 counterexample: after `registerTemplateString("t", "B", "FR")`
the in-memory registration for the pair (`t`, `FR`) exists, yet
`load("t", "FR")` does not return the registered body: it throws
`templateNotFound`, because `load` lowercases the language (candidates
`fr`, `fr-FR`) while registration stores the key under `FR` verbatim. -/
theorem C4_counterexample :
    (engEmpty.registerTemplateString (("t")) (("B")) (("FR"))).memoryTemplates.lookup
        (mkKey (("FR")) (("t"))) = some (("B")) ∧
    ((engEmpty.registerTemplateString (("t")) (("B")) (("FR"))).load
        [] (("t")) (("FR"))).result
      = Except.error (TemplateError.templateNotFound (("t")) (("FR"))) := by decide

/-- C4 amended: the in-memory check does precede the cache check
unconditionally on every call, so a registration is returned regardless
of any cache entry or disk file — in TemplateEngine provided the
requested language tag is non-empty and equal to its own lowercase form
(so that the lowercasing in `#getLangCandidates` reproduces the
registration key), and in EmailClient unconditionally (no
normalization there). -/
theorem C4_memory_precedence (e : TemplateEngine) (c : EmailClient) (disk : Disk)
    (name lang body : String) :
    ((lang == ((""))) = false → lowerString lang = lang →
      ((e.registerTemplateString name body lang).load disk name lang).result
        = Except.ok body) ∧
    ((c.registerTemplateString name body lang).loadTemplate disk name lang).result
      = Except.ok body := by
  constructor
  · intro h1 h2
    apply load_memory_first _ disk name lang body h1 h2
    simp [TemplateEngine.registerTemplateString, List.lookup]
  · have hm : (c.registerTemplateString name body lang).memoryTemplates.lookup
        (mkKey lang name) = some body := by
      simp [EmailClient.registerTemplateString, List.lookup]
    rw [ecLoad_memory _ disk name lang body hm]

/-- C4 amended, witnessed with a lowercase language tag. -/
theorem C4_memory_precedence_witness :
    ((engEmpty.registerTemplateString (("t")) (("B")) (("fr"))).load
        [] (("t")) (("fr"))).result = Except.ok (("B")) ∧
    ((clientEmpty.registerTemplateString (("t")) (("B")) (("fr"))).loadTemplate
        [] (("t")) (("fr"))).result = Except.ok (("B")) :=
  ⟨(C4_memory_precedence engEmpty clientEmpty [] (("t")) (("fr")) (("B"))).1
      (by decide) (by decide),
   (C4_memory_precedence engEmpty clientEmpty [] (("t")) (("fr")) (("B"))).2⟩

/-- C10 counterexample: `clearCache` does empty the cache and leave the
registrations in place, but the final consequence of the claim — "load
of any previously registered in-memory template still returns the
registered body" — fails for a registration under `FR`: the memory
entry is present after `clearCache`, yet `load("t", "FR")` throws
`templateNotFound` (same lowercasing mismatch as in C4, which
`clearCache` does not change). -/
theorem C10_counterexample :
    ((engEmpty.registerTemplateString (("t")) (("B")) (("FR"))).clearCache).memoryTemplates.lookup
        (mkKey (("FR")) (("t"))) = some (("B")) ∧
    (((engEmpty.registerTemplateString (("t")) (("B")) (("FR"))).clearCache).load
        [] (("t")) (("FR"))).result
      = Except.error (TemplateError.templateNotFound (("t")) (("FR"))) := by decide

/-- C10 amended: `clearCache()` empties the cache and changes nothing
else — default language, templates root, defaults and in-memory
registrations are untouched — and any in-memory template registered
under a non-empty language tag equal to its own lowercase form is still
returned by `load` afterwards, whatever the disk holds. -/
theorem C10_clearCache_frame (e : TemplateEngine) (disk : Disk) :
    e.clearCache.cache = [] ∧
    e.clearCache.memoryTemplates = e.memoryTemplates ∧
    e.clearCache.defaults = e.defaults ∧
    e.clearCache.defaultLang = e.defaultLang ∧
    e.clearCache.templatesPath = e.templatesPath ∧
    ∀ name lang body, (lang == ((""))) = false → lowerString lang = lang →
      e.memoryTemplates.lookup (mkKey lang name) = some body →
      (e.clearCache.load disk name lang).result = Except.ok body := by
  refine ⟨rfl, rfl, rfl, rfl, rfl, ?_⟩
  intro name lang body h1 h2 h3
  exact load_memory_first e.clearCache disk name lang body h1 h2 h3

/-- C10 amended, witnessed on a registered lowercase-language template. -/
theorem C10_clearCache_frame_witness :
    ((engEmpty.registerTemplateString (("t")) (("B")) (("fr"))).clearCache).cache = [] ∧
    ((engEmpty.registerTemplateString (("t")) (("B")) (("fr"))).clearCache).memoryTemplates
      = (engEmpty.registerTemplateString (("t")) (("B")) (("fr"))).memoryTemplates ∧
    (((engEmpty.registerTemplateString (("t")) (("B")) (("fr"))).clearCache).load
        [] (("t")) (("fr"))).result = Except.ok (("B")) := by
  have h := C10_clearCache_frame (engEmpty.registerTemplateString (("t")) (("B")) (("fr"))) []
  exact ⟨h.1, h.2.1, h.2.2.2.2.2 (("t")) (("fr")) (("B")) (by decide) (by decide) (by decide)⟩

/-- C5: resolution is an ordered first-match: if some candidate
directory of the requested language yields a hit (in-memory, cached or
on disk — `candHit`, tried in that order), `load` returns the first
such hit; only when the whole requested-language candidate list misses
does `load` consult the default-language candidate list, in order; and
only when that also misses does it fail with `templateNotFound`. -/
theorem C5_fallback_order (e : TemplateEngine) (disk : Disk) (name lang : String) :
    (∀ t, (getLangCandidates e.defaultLang lang).findSome?
        (candHit e.templatesPath e.memoryTemplates e.cache disk name) = some t →
      (e.load disk name lang).result = Except.ok t) ∧
    ((getLangCandidates e.defaultLang lang).findSome?
        (candHit e.templatesPath e.memoryTemplates e.cache disk name) = none →
      (∀ t, (getLangCandidates e.defaultLang e.defaultLang).findSome?
          (candHit e.templatesPath e.memoryTemplates e.cache disk name) = some t →
        (e.load disk name lang).result = Except.ok t) ∧
      ((getLangCandidates e.defaultLang e.defaultLang).findSome?
          (candHit e.templatesPath e.memoryTemplates e.cache disk name) = none →
        (e.load disk name lang).result
          = Except.error (TemplateError.templateNotFound name lang))) := by
  rcases h1 : loadLoop e.templatesPath e.memoryTemplates e.cache disk name
      (getLangCandidates e.defaultLang lang) with ⟨r1, p1, rd1⟩
  have hf1 := loadLoop_findSome e.templatesPath e.memoryTemplates e.cache disk name
      (getLangCandidates e.defaultLang lang)
  rw [h1] at hf1
  cases r1 with
  | some pr =>
    rcases pr with ⟨tpl, cache2⟩
    rw [load_eq_first e disk name lang tpl cache2 p1 rd1 h1]
    constructor
    · intro t ht
      rw [← hf1] at ht
      simp at ht
      simp [ht]
    · intro hnone
      rw [← hf1] at hnone
      simp at hnone
  | none =>
    constructor
    · intro t ht
      rw [← hf1] at ht
      simp at ht
    · intro _
      rcases h2 : loadLoop e.templatesPath e.memoryTemplates e.cache disk name
        (getLangCandidates e.defaultLang e.defaultLang) with ⟨r2, p2, rd2⟩
      have hf2 := loadLoop_findSome e.templatesPath e.memoryTemplates e.cache disk name
        (getLangCandidates e.defaultLang e.defaultLang)
      rw [h2] at hf2
      cases r2 with
      | some pr =>
        rcases pr with ⟨tpl, cache2⟩
        rw [load_eq_fallback e disk name lang tpl cache2 p1 rd1 p2 rd2 h1 h2]
        constructor
        · intro t ht
          rw [← hf2] at ht
          simp at ht
          simp [ht]
        · intro hnone
          rw [← hf2] at hnone
          simp at hnone
      | none =>
        rw [load_eq_none e disk name lang p1 rd1 p2 rd2 h1 h2]
        refine ⟨?_, fun _ => rfl⟩
        intro t ht
        rw [← hf2] at ht
        simp at ht

/-- C5, witnessed by the specification's P3 scenario: with
`defaultLang = "en"`, a template present on disk only under the
`en-EN` directory still resolves for `lang = "en"`, through the
ordered candidate list. -/
theorem C5_fallback_order_witness :
    (getLangCandidates (("en")) (("en"))).findSome?
        (candHit (("T")) [] [] diskEnEN (("welcome"))) = some (("BODY")) ∧
    (engEmpty.load diskEnEN (("welcome")) (("en"))).result = Except.ok (("BODY")) :=
  ⟨by decide,
   (C5_fallback_order engEmpty diskEnEN (("welcome")) (("en"))).1 (("BODY")) (by decide)⟩

/-- C8: if a `load` succeeds, an immediately repeated `load` on the
resulting state (no intervening `clearCache` or registration) returns
the identical string, performs zero `readFileSync` reads (it is
answered from the in-memory store or from the cache the first call
populated), and leaves the state unchanged. The EmailClient analogue
holds for `#loadTemplate`. -/
theorem C8_cache_idempotent (e : TemplateEngine) (c : EmailClient) (disk : Disk)
    (name lang t u : String) :
    ((e.load disk name lang).result = Except.ok t →
      ((e.load disk name lang).state.load disk name lang).result = Except.ok t ∧
      ((e.load disk name lang).state.load disk name lang).reads = 0 ∧
      ((e.load disk name lang).state.load disk name lang).state
        = (e.load disk name lang).state) ∧
    ((c.loadTemplate disk name lang).result = Except.ok u →
      ((c.loadTemplate disk name lang).state.loadTemplate disk name lang).result
        = Except.ok u ∧
      ((c.loadTemplate disk name lang).state.loadTemplate disk name lang).reads = 0 ∧
      ((c.loadTemplate disk name lang).state.loadTemplate disk name lang).state
        = (c.loadTemplate disk name lang).state) :=
  ⟨fun h => load_second e disk name lang t h,
   fun h => ecLoad_second c disk name lang u h⟩

/-- C8, witnessed on a disk-backed template: the first call reads the
file once, the second call is served from the cache with zero reads. -/
theorem C8_cache_idempotent_witness :
    (engEmpty.load diskEnEN (("welcome")) (("en"))).result = Except.ok (("BODY")) ∧
    (engEmpty.load diskEnEN (("welcome")) (("en"))).reads = 1 ∧
    ((engEmpty.load diskEnEN (("welcome")) (("en"))).state.load diskEnEN
        (("welcome")) (("en"))).result = Except.ok (("BODY")) ∧
    ((engEmpty.load diskEnEN (("welcome")) (("en"))).state.load diskEnEN
        (("welcome")) (("en"))).reads = 0 := by
  have h := (C8_cache_idempotent engEmpty clientEmpty diskEnEN (("welcome")) (("en"))
      (("BODY")) (("BODY"))).1 (by decide)
  exact ⟨by decide, by decide, h.1, h.2.1⟩

/-- C9: a failed `load` leaves the engine exactly as it was — the
cache and the in-memory map are untouched (the only cache write in the
code sits on the success path, just before the successful return);
likewise for EmailClient's `#loadTemplate`. -/
theorem C9_failed_load_frame (e : TemplateEngine) (c : EmailClient) (disk : Disk)
    (name lang : String) (errT : TemplateError) (errC : ECError) :
    ((e.load disk name lang).result = Except.error errT →
      (e.load disk name lang).state = e) ∧
    ((c.loadTemplate disk name lang).result = Except.error errC →
      (c.loadTemplate disk name lang).state = c) :=
  ⟨fun h => load_error_frame e disk name lang errT h,
   fun h => ecLoad_error_frame c disk name lang errC h⟩

/-- C9, witnessed on a load that fails on an empty disk. -/
theorem C9_failed_load_frame_witness :
    (engEmpty.load [] (("missing")) (("en"))).result
      = Except.error (TemplateError.templateNotFound (("missing")) (("en"))) ∧
    (engEmpty.load [] (("missing")) (("en"))).state = engEmpty ∧
    (clientEmpty.loadTemplate [] (("missing")) (("en"))).result
      = Except.error (ECError.templateNotFound (("missing")) (("en"))) ∧
    (clientEmpty.loadTemplate [] (("missing")) (("en"))).state = clientEmpty := by
  have h := C9_failed_load_frame engEmpty clientEmpty [] (("missing")) (("en"))
    (TemplateError.templateNotFound (("missing")) (("en")))
    (ECError.templateNotFound (("missing")) (("en")))
  exact ⟨by decide, h.1 (by decide), by decide, h.2 (by decide)⟩

theorem stringExt {s t : String} (h : s.data = t.data) : s = t := by
  cases s; cases t; exact congrArg String.mk h

theorem strmk_append3 (x y z : List Char) :
    String.mk (x ++ (y ++ z)) = String.mk x ++ String.mk y ++ String.mk z :=
  stringExt (by simp)

/-- C7: in a segment-built template `pre ++ \x7b\x7bk\x7d\x7d ++ post`
(brace-free literals, identifier keys), a key whose merged value is
present — any non-null value, so in particular `0`, `false`, and the
empty string — is substituted with the string form of that value
(HTML-escaped by TemplateEngine, raw in EmailClient; the escape is the
identity on `0`, `false` and `""`) and is NOT recorded as missing,
while a key whose merged value is absent (no entry) or null/undefined
is substituted with the empty string and recorded in the missing list.
Both substitution routines are covered. -/
theorem C7_falsy_present (e : TemplateEngine) (c : EmailClient) (vars : Bag)
    (pre post : List Seg) (k : String)
    (hpre : ∀ s ∈ pre, segWF s = true) (hpost : ∀ s ∈ post, segWF s = true)
    (hk : identOK k = true) :
    ((∀ v, (vars ++ e.defaults).lookup k = some v → v ≠ JsVal.vNull →
      (e.replaceVariables (String.mk (segsStr (pre ++ Seg.var k :: post))) vars).output
        = (e.replaceVariables (String.mk (segsStr pre)) vars).output
            ++ escapeHtml (jsToString v)
            ++ (e.replaceVariables (String.mk (segsStr post)) vars).output ∧
      (e.replaceVariables (String.mk (segsStr (pre ++ Seg.var k :: post))) vars).missing
        = (e.replaceVariables (String.mk (segsStr pre)) vars).missing
            ++ (e.replaceVariables (String.mk (segsStr post)) vars).missing) ∧
     (((vars ++ e.defaults).lookup k = none ∨
         (vars ++ e.defaults).lookup k = some JsVal.vNull) →
      (e.replaceVariables (String.mk (segsStr (pre ++ Seg.var k :: post))) vars).output
        = (e.replaceVariables (String.mk (segsStr pre)) vars).output
            ++ (e.replaceVariables (String.mk (segsStr post)) vars).output ∧
      (e.replaceVariables (String.mk (segsStr (pre ++ Seg.var k :: post))) vars).missing
        = (e.replaceVariables (String.mk (segsStr pre)) vars).missing
            ++ (k :: (e.replaceVariables (String.mk (segsStr post)) vars).missing))) ∧
    ((∀ v, (vars ++ c.defaults).lookup k = some v → v ≠ JsVal.vNull →
      (c.replaceVariables (String.mk (segsStr (pre ++ Seg.var k :: post))) vars).output
        = (c.replaceVariables (String.mk (segsStr pre)) vars).output
            ++ jsToString v
            ++ (c.replaceVariables (String.mk (segsStr post)) vars).output ∧
      (c.replaceVariables (String.mk (segsStr (pre ++ Seg.var k :: post))) vars).missing
        = (c.replaceVariables (String.mk (segsStr pre)) vars).missing
            ++ (c.replaceVariables (String.mk (segsStr post)) vars).missing) ∧
     (((vars ++ c.defaults).lookup k = none ∨
         (vars ++ c.defaults).lookup k = some JsVal.vNull) →
      (c.replaceVariables (String.mk (segsStr (pre ++ Seg.var k :: post))) vars).output
        = (c.replaceVariables (String.mk (segsStr pre)) vars).output
            ++ (c.replaceVariables (String.mk (segsStr post)) vars).output ∧
      (c.replaceVariables (String.mk (segsStr (pre ++ Seg.var k :: post))) vars).missing
        = (c.replaceVariables (String.mk (segsStr pre)) vars).missing
            ++ (k :: (c.replaceVariables (String.mk (segsStr post)) vars).missing))) := by
  have hwfAll : ∀ s ∈ pre ++ Seg.var k :: post, segWF s = true := by
    intro s hs
    rcases List.mem_append.mp hs with hs | hs
    · exact hpre s hs
    · rcases List.mem_cons.mp hs with hs | hs
      · subst hs; simpa [segWF] using hk
      · exact hpost s hs
  constructor
  · rw [replaceVariables_segs e vars (pre ++ Seg.var k :: post) hwfAll,
      replaceVariables_segs e vars pre hpre, replaceVariables_segs e vars post hpost,
      segRenderTE_append (vars ++ e.defaults) pre (Seg.var k :: post)]
    constructor
    · intro v hv hvn
      cases v with
      | vNull => exact absurd rfl hvn
      | vStr s =>
        simp only [segRenderTE, hv]
        exact ⟨strmk_append3 _ _ _, trivial⟩
      | vNum n =>
        simp only [segRenderTE, hv]
        exact ⟨strmk_append3 _ _ _, trivial⟩
      | vBool b =>
        simp only [segRenderTE, hv]
        exact ⟨strmk_append3 _ _ _, trivial⟩
    · intro hv
      rcases hv with hv | hv
      · simp only [segRenderTE, hv]
        exact ⟨strmk_append _ _, trivial⟩
      · simp only [segRenderTE, hv]
        exact ⟨strmk_append _ _, trivial⟩
  · rw [ecReplaceVariables_segs c vars (pre ++ Seg.var k :: post) hwfAll,
      ecReplaceVariables_segs c vars pre hpre, ecReplaceVariables_segs c vars post hpost,
      segRenderEC_append (vars ++ c.defaults) pre (Seg.var k :: post)]
    constructor
    · intro v hv hvn
      cases v with
      | vNull => exact absurd rfl hvn
      | vStr s =>
        simp only [segRenderEC, hv]
        exact ⟨strmk_append3 _ _ _, trivial⟩
      | vNum n =>
        simp only [segRenderEC, hv]
        exact ⟨strmk_append3 _ _ _, trivial⟩
      | vBool b =>
        simp only [segRenderEC, hv]
        exact ⟨strmk_append3 _ _ _, trivial⟩
    · intro hv
      rcases hv with hv | hv
      · simp only [segRenderEC, hv]
        exact ⟨strmk_append _ _, trivial⟩
      · simp only [segRenderEC, hv]
        exact ⟨strmk_append _ _, trivial⟩

/-- C7, witnessed by the specification's P6 example `COUNT = 0` in
`"\x7b\x7bCOUNT\x7d\x7d items"`, on both substitution routines. -/
theorem C7_falsy_present_witness :
    (engEmpty.replaceVariables (("\x7b\x7bCOUNT\x7d\x7d items"))
        [((("COUNT")), JsVal.vNum 0)]).output = (("0 items")) ∧
    (engEmpty.replaceVariables (("\x7b\x7bCOUNT\x7d\x7d items"))
        [((("COUNT")), JsVal.vNum 0)]).missing = [] ∧
    (clientEmpty.replaceVariables (("\x7b\x7bCOUNT\x7d\x7d items"))
        [((("COUNT")), JsVal.vNum 0)]).output = (("0 items")) ∧
    (clientEmpty.replaceVariables (("\x7b\x7bCOUNT\x7d\x7d items"))
        [((("COUNT")), JsVal.vNum 0)]).missing = [] := by
  have h := C7_falsy_present engEmpty clientEmpty [((("COUNT")), JsVal.vNum 0)]
    [] [Seg.lit ((" items"))] (("COUNT")) (by simp) (by decide) (by decide)
  have h1 := h.1.1 (JsVal.vNum 0) (by decide) (by decide)
  have h2 := h.2.1 (JsVal.vNum 0) (by decide) (by decide)
  have heq : String.mk (segsStr ([] ++ Seg.var (("COUNT")) :: [Seg.lit ((" items"))]))
      = (("\x7b\x7bCOUNT\x7d\x7d items")) := by decide
  rw [heq] at h1 h2
  refine ⟨?_, ?_, ?_, ?_⟩
  · rw [h1.1]; decide
  · rw [h1.2]; decide
  · rw [h2.1]; decide
  · rw [h2.2]; decide

/-- C6 counterexample: with identical configuration (defaultLang `en`,
same templates root, no defaults, the same template `Hi \x7b\x7bX\x7d\x7d`
registered in memory for `en`) and the same variables `X = "<b>"`,
`TemplateEngine.render` yields `Hi &lt;b&gt;` while
`EmailClient.compileTemplate` yields `Hi <b>` — the two operations are
not the same: only the former escapes. -/
theorem C6_counterexample :
    (TemplateEngine.render ⟨(("en")), (("T")), [], [],
        [(mkKey (("en")) (("t")), (("Hi \x7b\x7bX\x7d\x7d")))]⟩ []
        (("t")) [((("X")), JsVal.vStr (("<b>")))] (("en"))).1
      = Except.ok ⟨(("Hi &lt;b&gt;")), []⟩ ∧
    (EmailClient.compileTemplate ⟨(("en")), [], (("T")), [],
        [(mkKey (("en")) (("t")), (("Hi \x7b\x7bX\x7d\x7d")))]⟩ []
        (("t")) (("en")) [((("X")), JsVal.vStr (("<b>")))]).1
      = Except.ok ⟨(("Hi <b>")), []⟩ ∧
    (⟨(("Hi &lt;b&gt;")), []⟩ : SubstResult) ≠ ⟨(("Hi <b>")), []⟩ := by decide

/-- C6 amended: `render` and `compileTemplate` agree on the common
fragment: same defaultLang, defaults and in-memory registrations; a
template registered under the exact (non-empty, lowercase) requested
language; every placeholder of the shape `\x7b\x7bIDENTIFIER\x7d\x7d`
with brace-free literals; and every bag value whose string form is
unchanged by HTML-escaping. Then both produce the same output (and
both succeed), whatever either cache or disk holds. Outside this
fragment they differ: EmailClient does not escape (see the
counterexample), uses the lazy any-character key grammar, and applies
no language normalization or fallback. -/
theorem C6_render_compile_agree
    (defaultLang templatesPath : String) (defaults : Bag)
    (mem cacheTE cacheEC : List (String × String)) (diskTE diskEC : Disk)
    (name lang : String) (vars : Bag) (segs : List Seg)
    (h1 : (lang == ((""))) = false) (h2 : lowerString lang = lang)
    (hmem : mem.lookup (mkKey lang name) = some (String.mk (segsStr segs)))
    (hwf : ∀ s ∈ segs, segWF s = true)
    (hesc : ∀ p ∈ vars ++ defaults, escapeHtml (jsToString p.2) = jsToString p.2) :
    ∃ out : SubstResult,
      (TemplateEngine.render ⟨defaultLang, templatesPath, defaults, cacheTE, mem⟩
          diskTE name vars lang).1 = Except.ok out ∧
      (EmailClient.compileTemplate ⟨defaultLang, defaults, templatesPath, cacheEC, mem⟩
          diskEC name lang vars).1 = Except.ok out := by
  refine ⟨⟨String.mk (segRenderEC (vars ++ defaults) segs).1,
      (segRenderEC (vars ++ defaults) segs).2⟩, ?_, ?_⟩
  · have hload : ((⟨defaultLang, templatesPath, defaults, cacheTE, mem⟩ :
        TemplateEngine).load diskTE name lang).result
          = Except.ok (String.mk (segsStr segs)) :=
      load_memory_first _ diskTE name lang _ h1 h2 hmem
    have hfr := (load_state_frame (⟨defaultLang, templatesPath, defaults, cacheTE, mem⟩ :
      TemplateEngine) diskTE name lang).2.2.1
    unfold TemplateEngine.render
    rcases hl : (⟨defaultLang, templatesPath, defaults, cacheTE, mem⟩ :
        TemplateEngine).load diskTE name lang with ⟨res, st2, p, rd⟩
    rw [hl] at hload hfr
    have hres : res = Except.ok (String.mk (segsStr segs)) := hload
    have hdef : st2.defaults = defaults := hfr
    subst hres
    simp only [hl]
    rw [replaceVariables_segs st2 vars segs hwf, hdef,
      segRender_eq_of_escape_free (vars ++ defaults) hesc segs]
  · have hm2 : (⟨defaultLang, defaults, templatesPath, cacheEC, mem⟩ :
        EmailClient).memoryTemplates.lookup (mkKey lang name)
          = some (String.mk (segsStr segs)) := hmem
    unfold EmailClient.compileTemplate
    simp only [ecLoad_memory _ diskEC name lang _ hm2]
    rw [ecReplaceVariables_segs _ vars segs hwf]

/-- C6 amended, witnessed on a shared in-memory template with an
escape-free variable value. -/
theorem C6_render_compile_agree_witness :
    ∃ out : SubstResult,
      (TemplateEngine.render ⟨(("en")), (("T")), [], [],
          [(mkKey (("en")) (("t")),
            String.mk (segsStr [Seg.lit (("Hello ")), Seg.var (("X"))]))]⟩
          [] (("t")) [((("X")), JsVal.vStr (("friend")))] (("en"))).1 = Except.ok out ∧
      (EmailClient.compileTemplate ⟨(("en")), [], (("T")), [],
          [(mkKey (("en")) (("t")),
            String.mk (segsStr [Seg.lit (("Hello ")), Seg.var (("X"))]))]⟩
          [] (("t")) (("en")) [((("X")), JsVal.vStr (("friend")))]).1 = Except.ok out :=
  C6_render_compile_agree (("en")) (("T")) []
    [(mkKey (("en")) (("t")),
      String.mk (segsStr [Seg.lit (("Hello ")), Seg.var (("X"))]))] [] [] [] []
    (("t")) (("en")) [((("X")), JsVal.vStr (("friend")))]
    [Seg.lit (("Hello ")), Seg.var (("X"))]
    (by decide) (by decide) (by decide) (by decide) (by decide)
